import Mathlib

/-!
Verification of the coda-protocol/kyc-attestations reconciliation core.

The definitions below are a shallow embedding of:
  * the SDK verifier (src/sdk/src/sdk/verifier.ts): `checkStatus` and
    `CodaKyc.verifyKycStatus`, including its candidate loop and merge logic;
  * the web decoder (src/web/lib/kyc.ts): `checkOnChainStatus`;
  * the Move contract view functions (src/sources/kyc.move): `is_revoked`
    and `get_effective_status`;
  * the issuer cache refresh (SynthVerifier.fetchAuthorizedIssuers).

The ledger is modelled as an oracle `q : String -> InspectResult` giving, for
each object id, the raw devInspect response of the status query, and the
enumeration result is passed in as an `Except` value.  The verifier is
instrumented to also return the list of object ids for which a status query
was issued, which the source performs as a side effect.
-/

/-- The six verification outcomes of the SDK (types.ts `KycVerificationStatus`). -/
inductive KycVerificationStatus
  | Verified
  | NotVerified
  | Expired
  | Revoked
  | Invalid
  | Error
  deriving DecidableEq

/-- The string value of each member of the TS string enum. -/
def statusString : KycVerificationStatus → String
  | .Verified => ("Verified")
  | .NotVerified => ("NotVerified")
  | .Expired => ("Expired")
  | .Revoked => ("Revoked")
  | .Invalid => ("Invalid")
  | .Error => ("Error")

/-- The ad hoc priority table from verifier.ts lines 261-268. -/
def statusPriority : KycVerificationStatus → Nat
  | .Verified => 5
  | .Expired => 4
  | .Revoked => 3
  | .Invalid => 2
  | .NotVerified => 1
  | .Error => 0

/-- Raw devInspect response for a status query: either the call failed (or its
return values could not be read), or it produced BCS bytes and a declared
return type. -/
inductive InspectResult
  | failure (msg : String)
  | success (returnValue : Option (List Nat × String))
  deriving DecidableEq

/-- Embedding of `CodaKyc.checkStatus` (verifier.ts lines 50-101): decode the
devInspect response of `get_effective_status`.  Tags 0, 1, 2 map to Active,
Expired, Revoked; a failed call, a missing return value, a return-type
mismatch, or an out-of-range tag index all throw, which the catch block
rewraps into an error. -/
def checkStatus (expectedReturnType : String) (r : InspectResult) : Except String String :=
  match r with
  | .failure msg =>
      .error ("Error checking attestation status: devInspect failed: " ++ msg)
  | .success none =>
      .error ("Error checking attestation status: Could not parse return values from get_effective_status.")
  | .success (some rv) =>
      if rv.2 ≠ expectedReturnType then
        .error ("Error checking attestation status: Unexpected return type: " ++ rv.2)
      else
        match rv.1.head? with
        | some 0 => .ok ("Active")
        | some 1 => .ok ("Expired")
        | some 2 => .ok ("Revoked")
        | _ => .error ("Error checking attestation status: Unknown status index returned.")

/-- Embedding of `checkOnChainStatus` (web/lib/kyc.ts lines 14-94).  The web
decoder checks the declared return type, rejects an empty payload explicitly,
then decodes the tag; every failure path is rewrapped by the catch block into
one constant message. -/
def checkOnChainStatus (expectedReturnType : String) (r : InspectResult) : Except String String :=
  match r with
  | .failure _ =>
      .error ("An error has occured when checking on-chain status:")
  | .success none =>
      .error ("An error has occured when checking on-chain status:")
  | .success (some rv) =>
      if rv.2 ≠ expectedReturnType then
        .error ("An error has occured when checking on-chain status:")
      else if rv.1.length = 0 then
        .error ("An error has occured when checking on-chain status:")
      else
        match rv.1.head? with
        | some 0 => .ok ("Active")
        | some 1 => .ok ("Expired")
        | some 2 => .ok ("Revoked")
        | _ => .error ("An error has occured when checking on-chain status:")

/-- True exactly when the decode result is an error. -/
def failed (r : Except String String) : Bool :=
  match r with
  | .error _ => true
  | .ok _ => false

/-- Ownership descriptor of a ledger object: an address owner, or any other
ownership shape (shared, object-owned, immutable, ...). -/
inductive OwnerKind
  | addressOwner (addr : String)
  | other
  deriving DecidableEq

/-- The Move fields of a KycAttestation record as seen by the SDK
(`obj.data.content.fields`). -/
structure AttFields where
  recipient : String
  issuer : String
  issuance_timestamp_ms : Nat
  expiry_timestamp_ms : Nat
  status_variant : Option String
  deriving DecidableEq

/-- The `content` block of an owned-object response. -/
structure MoveContent where
  dataType : String
  type : String
  fields : AttFields
  deriving DecidableEq

/-- The `data` block of an owned-object response. -/
structure ObjData where
  objectId : String
  content : Option MoveContent
  owner : Option OwnerKind
  deriving DecidableEq

/-- One element of the `getOwnedObjects` enumeration. -/
structure RawOwnedObject where
  data : Option ObjData
  deriving DecidableEq

/-- The derived attestation view attached to results (verifier.ts 167-181). -/
structure AttestationDetails where
  objectId : String
  issuer : String
  recipient : String
  currentOwner : String
  issuedAt : Nat
  expiresAt : Option Nat
  statusRaw : String
  deriving DecidableEq

/-- Embedding of the attestationDetails construction in verifier.ts 167-181
(identically web/pages/api/kyc/verify.ts 84-100): `expiresAt` is null when the
stored expiry is the zero sentinel, and `statusRaw` is Active exactly when the
record's internal status variant reads Active, Revoked otherwise. -/
def attestationDetailsOf (objectId : String) (f : AttFields) (currentOwner : String) :
    AttestationDetails :=
  { objectId := objectId
    issuer := f.issuer
    recipient := f.recipient
    currentOwner := currentOwner
    issuedAt := f.issuance_timestamp_ms
    expiresAt := if f.expiry_timestamp_ms > 0 then some f.expiry_timestamp_ms else none
    statusRaw := if f.status_variant = some ("Active") then ("Active") else ("Revoked") }

/-- The result record returned by `verifyKycStatus` (types.ts
`KycVerificationResult`). -/
structure KycVerificationResult where
  status : KycVerificationStatus
  details : String
  attestation : Option AttestationDetails := none
  deriving DecidableEq

/-- Embedding of the candidate loop of `CodaKyc.verifyKycStatus`
(verifier.ts lines 131-276).  Besides the running best result it returns the
list of object ids for which `checkStatus` was invoked, so that claims about
which status queries are issued can be stated.  Branches in order: missing
data / non-moveObject content / wrong type are skipped; non-address owners are
skipped; an ownership mismatch yields Invalid and replaces the best only when
the best is still NotVerified; a status-query failure yields Error under the
same replacement rule; a decoded status maps Active to Verified (returning
immediately), Expired and Revoked merge under strict priority comparison. -/
def verifyLoop (q : String → InspectResult) (kycAttestationType returnType : String) :
    List RawOwnedObject → KycVerificationResult → KycVerificationResult × List String
  | [], result => (result, [])
  | obj :: rest, result =>
    match obj.data with
    | none => verifyLoop q kycAttestationType returnType rest result
    | some d =>
      match d.content with
      | none => verifyLoop q kycAttestationType returnType rest result
      | some c =>
        if c.dataType ≠ ("moveObject") ∨ c.type ≠ kycAttestationType then
          verifyLoop q kycAttestationType returnType rest result
        else
          match d.owner with
          | none => verifyLoop q kycAttestationType returnType rest result
          | some .other => verifyLoop q kycAttestationType returnType rest result
          | some (.addressOwner currentOwner) =>
            let objectId := d.objectId
            let att := attestationDetailsOf objectId c.fields currentOwner
            if currentOwner ≠ c.fields.recipient then
              let result2 :=
                if result.status = .NotVerified then
                  { status := .Invalid
                    details := ("Attestation object " ++ objectId ++ " owner does not match intended recipient.")
                    attestation := some att }
                else result
              verifyLoop q kycAttestationType returnType rest result2
            else
              match checkStatus returnType (q objectId) with
              | .error _ =>
                let result2 :=
                  if result.status = .NotVerified then
                    { status := .Error
                      details := ("Failed to query on-chain status for attestation " ++ objectId ++ ".")
                      attestation := none }
                  else result
                let out := verifyLoop q kycAttestationType returnType rest result2
                (out.1, objectId :: out.2)
              | .ok s =>
                if s = ("Active") ∨ s = ("Expired") ∨ s = ("Revoked") then
                  let currentStatus : KycVerificationStatus :=
                    if s = ("Active") then .Verified
                    else if s = ("Expired") then .Expired
                    else .Revoked
                  let currentResult : KycVerificationResult :=
                    { status := currentStatus
                      details := ("Attestation " ++ objectId ++ ": Status is " ++ statusString currentStatus)
                      attestation := some att }
                  if currentStatus = .Verified then
                    (currentResult, [objectId])
                  else
                    let result2 :=
                      if statusPriority currentResult.status > statusPriority result.status then
                        currentResult
                      else result
                    let out := verifyLoop q kycAttestationType returnType rest result2
                    (out.1, objectId :: out.2)
                else
                  let result2 :=
                    if result.status = .NotVerified then
                      { status := .Error
                        details := ("Received unknown effective status " ++ s ++ " for " ++ objectId ++ ".")
                        attestation := none }
                    else result
                  let out := verifyLoop q kycAttestationType returnType rest result2
                  (out.1, objectId :: out.2)

/-- The initial running best result (verifier.ts lines 125-129). -/
def initialResult : KycVerificationResult :=
  { status := .NotVerified
    details := ("No valid KYC attestation found from an authorized issuer.")
    attestation := none }

/-- Embedding of `CodaKyc.verifyKycStatus` (verifier.ts lines 110-289),
instrumented with the list of queried object ids.  `enumRes` is the outcome of
the `getOwnedObjects` enumeration; its failure is the one fatal path and
produces an Error result directly. -/
def verifyKycRun (q : String → InspectResult) (kycAttestationType returnType : String)
    (enumRes : Except String (List RawOwnedObject)) : KycVerificationResult × List String :=
  match enumRes with
  | .error e =>
      ({ status := .Error, details := ("SDK Error: " ++ e), attestation := none }, [])
  | .ok objs =>
    if objs.length = 0 then
      ({ status := .NotVerified
         details := ("No KYC attestations found for this address.")
         attestation := none }, [])
    else
      verifyLoop q kycAttestationType returnType objs initialResult

/-- The result component of `verifyKycStatus`, as returned to the caller. -/
def verifyKycStatus (q : String → InspectResult) (kycAttestationType returnType : String)
    (enumRes : Except String (List RawOwnedObject)) : KycVerificationResult :=
  (verifyKycRun q kycAttestationType returnType enumRes).1

/-- Per-candidate outcome produced by the loop body for one enumerated object:
`none` when the object is skipped (structural mismatch or non-address owner),
otherwise the outcome the candidate contributes to the merge.  The branches
mirror verifier.ts lines 131-246. -/
def candidateOutcome (q : String → InspectResult) (kycAttestationType returnType : String)
    (obj : RawOwnedObject) : Option KycVerificationStatus :=
  match obj.data with
  | none => none
  | some d =>
    match d.content with
    | none => none
    | some c =>
      if c.dataType ≠ ("moveObject") ∨ c.type ≠ kycAttestationType then none
      else
        match d.owner with
        | none => none
        | some .other => none
        | some (.addressOwner currentOwner) =>
          if currentOwner ≠ c.fields.recipient then some .Invalid
          else
            match checkStatus returnType (q d.objectId) with
            | .error _ => some .Error
            | .ok s =>
              if s = ("Active") ∨ s = ("Expired") ∨ s = ("Revoked") then
                some (if s = ("Active") then .Verified
                      else if s = ("Expired") then .Expired
                      else .Revoked)
              else some .Error

/-- The per-candidate outcomes of an enumerated batch, in enumeration order. -/
def outcomes (q : String → InspectResult) (kycAttestationType returnType : String)
    (objs : List RawOwnedObject) : List KycVerificationStatus :=
  objs.filterMap (candidateOutcome q kycAttestationType returnType)

/-- The merge rule the loop applies to a non-Verified candidate outcome `o`
against the running best status `a`: Invalid and Error replace only a
NotVerified best, Expired and Revoked replace under strict priority
comparison. -/
def mergeStep (a o : KycVerificationStatus) : KycVerificationStatus :=
  if o = .Invalid ∨ o = .Error then
    (if a = .NotVerified then o else a)
  else
    (if statusPriority o > statusPriority a then o else a)

/-- Status-level abstraction of the candidate loop: fold the outcomes with the
merge rule, short-circuiting on Verified. -/
def foldStatus : KycVerificationStatus → List KycVerificationStatus → KycVerificationStatus
  | a, [] => a
  | a, o :: rest => if o = .Verified then .Verified else foldStatus (mergeStep a o) rest

/-- Membership-based characterization of the merged status (proved below to
coincide with what the loop computes from the NotVerified start): Verified
dominates, then Expired, then Revoked; with none of those present the first
produced outcome (necessarily Invalid or Error) is kept, and with no outcome
at all the start value NotVerified remains. -/
def finalOf (outs : List KycVerificationStatus) : KycVerificationStatus :=
  if .Verified ∈ outs then .Verified
  else if .Expired ∈ outs then .Expired
  else if .Revoked ∈ outs then .Revoked
  else outs.head?.getD .NotVerified

/-- Like `finalOf` but relative to an arbitrary non-NotVerified running best:
used as the induction invariant for the merge fold. -/
def finalOfAcc (a : KycVerificationStatus) (outs : List KycVerificationStatus) :
    KycVerificationStatus :=
  if .Verified ∈ outs ∨ a = .Verified then .Verified
  else if .Expired ∈ outs ∨ a = .Expired then .Expired
  else if .Revoked ∈ outs ∨ a = .Revoked then .Revoked
  else a

/-- The maximum of `statusPriority` over a list of outcomes (0 when empty). -/
def maxPriority (outs : List KycVerificationStatus) : Nat :=
  outs.foldl (fun m o => Nat.max m (statusPriority o)) 0

/-- The on-chain fields of a `KycAttestation` (sources/kyc.move lines
106-113), with its Sui object id; addresses and ids are modelled as Nat. -/
structure KycAttestationOnChain where
  id : Nat
  recipient : Nat
  issuer : Nat
  issuance_timestamp_ms : Nat
  expiry_timestamp_ms : Nat
  deriving DecidableEq

/-- The shared `RevocationRegistry` (sources/kyc.move lines 101-104): a table
from attestation id to revocation timestamp, modelled as an association
list. -/
structure RevocationRegistry where
  revoked_attestations : List (Nat × Nat)
  deriving DecidableEq

/-- The Move enum `KycEffectiveStatus` (sources/kyc.move lines 80-84). -/
inductive KycEffectiveStatus
  | Active
  | Expired
  | Revoked
  deriving DecidableEq

/-- Embedding of `is_revoked` (sources/kyc.move lines 246-248): table
containment of the attestation id. -/
def is_revoked (registry : RevocationRegistry) (id : Nat) : Bool :=
  registry.revoked_attestations.any (fun e => e.1 = id)

/-- Embedding of `get_effective_status` (sources/kyc.move lines 252-268):
revocation first, then expiry against the clock, else Active. -/
def get_effective_status (attestation : KycAttestationOnChain)
    (revocation_registry : RevocationRegistry) (clock_timestamp_ms : Nat) :
    KycEffectiveStatus :=
  if is_revoked revocation_registry attestation.id then .Revoked
  else if attestation.expiry_timestamp_ms ≠ 0 ∧
      clock_timestamp_ms ≥ attestation.expiry_timestamp_ms then .Expired
  else .Active

/-- The issuer-cache fields of `SynthVerifier` (src/unnamed/part_003 lines
30-33): the cached set, its fetch time, and the configured TTL. -/
structure SynthVerifierCache where
  cacheDurationMs : Int
  authorizedIssuers : Option (List String)
  lastIssuerFetchTime : Int
  deriving DecidableEq

/-- Embedding of `SynthVerifier.fetchAuthorizedIssuers` (src/unnamed/part_003
lines 51-79).  A fresh cached set is returned as is; otherwise the registry
fetch is attempted inside a try block whose catch only logs, and the function
falls through returning undefined (modelled as `none`) both on fetch success
(the parsing of the registry object is a to-do in the source) and on fetch
failure.  The outer `Except` layer records whether an exception escapes to
the caller; no branch produces `.error`. -/
def fetchAuthorizedIssuers (st : SynthVerifierCache) (now : Int) (forceRefresh : Bool)
    (registryFetch : Except String Unit) : Except String (Option (List String)) :=
  if forceRefresh = false ∧ st.authorizedIssuers.isSome = true ∧
      now - st.lastIssuerFetchTime < st.cacheDurationMs then
    .ok st.authorizedIssuers
  else
    match registryFetch with
    | .ok _ => .ok none
    | .error _ => .ok none

/-- Fixture: attestation fields whose recipient is the address 0xr. -/
def sampleFields : AttFields :=
  { recipient := ("0xr")
    issuer := ("0xi")
    issuance_timestamp_ms := 10
    expiry_timestamp_ms := 0
    status_variant := some ("Active") }

/-- Fixture: a structurally valid candidate held by 0xz, not its recipient. -/
def mismatchObj : RawOwnedObject :=
  { data := some
      { objectId := ("0xa")
        content := some { dataType := ("moveObject"), type := ("T"), fields := sampleFields }
        owner := some (.addressOwner ("0xz")) } }

/-- Fixture: a structurally valid candidate held by its recipient 0xr. -/
def failObj : RawOwnedObject :=
  { data := some
      { objectId := ("0xb")
        content := some { dataType := ("moveObject"), type := ("T"), fields := sampleFields }
        owner := some (.addressOwner ("0xr")) } }

/-- Fixture: a ledger oracle on which every status query fails. -/
def failOracle : String → InspectResult := fun _ => .failure ("down")

/-- Fixture: a ledger oracle on which every status query returns tag 0
(Active) with the expected return type R. -/
def okOracle : String → InspectResult := fun _ => .success (some ([0], ("R")))

theorem verifyLoop_status (q : String → InspectResult) (T R : String)
    (objs : List RawOwnedObject) :
    ∀ acc : KycVerificationResult,
      ((verifyLoop q T R objs acc).1).status = foldStatus acc.status (outcomes q T R objs) := by
  induction objs with
  | nil => intro acc; rfl
  | cons obj rest ih =>
    intro acc
    obtain ⟨od⟩ := obj
    rcases od with _ | ⟨oid, oc, oo⟩
    · simpa [verifyLoop, outcomes, candidateOutcome] using ih acc
    rcases oc with _ | ⟨cdt, ct, cf⟩
    · simpa [verifyLoop, outcomes, candidateOutcome] using ih acc
    by_cases hskip : cdt ≠ ("moveObject") ∨ ct ≠ T
    · simpa [verifyLoop, outcomes, candidateOutcome, hskip] using ih acc
    rcases oo with _ | (addr | _)
    · simpa [verifyLoop, outcomes, candidateOutcome, hskip] using ih acc
    · by_cases hmo : addr ≠ cf.recipient
      · simp [verifyLoop, outcomes, candidateOutcome, hskip, hmo, foldStatus, mergeStep, ih,
          apply_ite KycVerificationResult.status]
      · rcases hcs : checkStatus R (q oid) with m | s
        · simp [verifyLoop, outcomes, candidateOutcome, hskip, hmo, hcs, foldStatus, mergeStep, ih,
            apply_ite KycVerificationResult.status]
        · by_cases hA : s = ("Active")
          · simp [verifyLoop, outcomes, candidateOutcome, hskip, hmo, hcs, hA, foldStatus]
          · by_cases hE : s = ("Expired")
            · simp [verifyLoop, outcomes, candidateOutcome, hskip, hmo, hcs, hA, hE, foldStatus,
                mergeStep, statusPriority, ih, apply_ite KycVerificationResult.status]
            · by_cases hR : s = ("Revoked")
              · simp [verifyLoop, outcomes, candidateOutcome, hskip, hmo, hcs, hA, hE, hR,
                  foldStatus, mergeStep, statusPriority, ih, apply_ite KycVerificationResult.status]
              · simp [verifyLoop, outcomes, candidateOutcome, hskip, hmo, hcs, hA, hE, hR,
                  foldStatus, mergeStep, ih, apply_ite KycVerificationResult.status]
    · simpa [verifyLoop, outcomes, candidateOutcome, hskip] using ih acc

theorem foldStatus_finalOfAcc (outs : List KycVerificationStatus) :
    ∀ a : KycVerificationStatus, .NotVerified ∉ outs → a ≠ .NotVerified →
      foldStatus a outs = finalOfAcc a outs := by
  induction outs with
  | nil =>
    intro a _ _
    cases a <;> simp [foldStatus, finalOfAcc]
  | cons o rest ih =>
    intro a hnv ha
    have hnvr : KycVerificationStatus.NotVerified ∉ rest :=
      fun h => hnv (List.mem_cons_of_mem _ h)
    have hon : o ≠ KycVerificationStatus.NotVerified :=
      fun h => hnv (h ▸ List.mem_cons_self _ _)
    have ih2 : ∀ b : KycVerificationStatus, b ≠ .NotVerified →
        foldStatus b rest = finalOfAcc b rest := fun b hb => ih b hnvr hb
    cases o <;> cases a <;>
      first
        | exact absurd rfl ha
        | exact absurd rfl hon
        | simp_all [foldStatus, mergeStep, statusPriority, finalOfAcc, List.mem_cons]

theorem foldStatus_notVerified_eq_finalOf (outs : List KycVerificationStatus)
    (hnv : .NotVerified ∉ outs) :
    foldStatus .NotVerified outs = finalOf outs := by
  cases outs with
  | nil => rfl
  | cons o rest =>
    have hnvr : KycVerificationStatus.NotVerified ∉ rest :=
      fun h => hnv (List.mem_cons_of_mem _ h)
    have hon : o ≠ KycVerificationStatus.NotVerified :=
      fun h => hnv (h ▸ List.mem_cons_self _ _)
    have hfix : ∀ b : KycVerificationStatus, b ≠ .NotVerified →
        foldStatus b rest = finalOfAcc b rest :=
      fun b hb => foldStatus_finalOfAcc rest b hnvr hb
    cases o <;>
      first
      | exact absurd rfl hon
      | simp_all [foldStatus, mergeStep, statusPriority, finalOf, finalOfAcc, List.mem_cons]

theorem candidateOutcome_ne_notVerified (q : String → InspectResult) (T R : String)
    (obj : RawOwnedObject) : candidateOutcome q T R obj ≠ some .NotVerified := by
  obtain ⟨od⟩ := obj
  rcases od with _ | ⟨oid, oc, oo⟩
  · simp [candidateOutcome]
  rcases oc with _ | ⟨cdt, ct, cf⟩
  · simp [candidateOutcome]
  by_cases hskip : cdt ≠ ("moveObject") ∨ ct ≠ T
  · simp [candidateOutcome, hskip]
  rcases oo with _ | (addr | _)
  · simp [candidateOutcome, hskip]
  · by_cases hmo : addr ≠ cf.recipient
    · simp [candidateOutcome, hskip, hmo]
    · rcases hcs : checkStatus R (q oid) with m | s
      · simp [candidateOutcome, hskip, hmo, hcs]
      · simp only [candidateOutcome, hskip, hmo, hcs]
        split_ifs <;> simp
  · simp [candidateOutcome, hskip]

theorem notVerified_not_mem_outcomes (q : String → InspectResult) (T R : String)
    (objs : List RawOwnedObject) :
    KycVerificationStatus.NotVerified ∉ outcomes q T R objs := by
  intro hmem
  rw [outcomes, List.mem_filterMap] at hmem
  obtain ⟨obj, _, hco⟩ := hmem
  exact candidateOutcome_ne_notVerified q T R obj hco

theorem verifyKycStatus_finalOf (q : String → InspectResult) (T R : String)
    (objs : List RawOwnedObject) (h : objs ≠ []) :
    (verifyKycStatus q T R (.ok objs)).status = finalOf (outcomes q T R objs) := by
  have hlen : ¬ objs.length = 0 := by simpa [List.length_eq_zero] using h
  rw [verifyKycStatus, verifyKycRun]
  simp only [hlen, if_false]
  rw [verifyLoop_status q T R objs initialResult]
  exact foldStatus_notVerified_eq_finalOf _ (notVerified_not_mem_outcomes q T R objs)

theorem foldMax_start_le (outs : List KycVerificationStatus) :
    ∀ a : Nat, a ≤ outs.foldl (fun m o => Nat.max m (statusPriority o)) a := by
  induction outs with
  | nil => intro a; simp
  | cons o rest ih => intro a; exact le_trans (Nat.le_max_left a _) (ih _)

theorem foldMax_mem_le (outs : List KycVerificationStatus) :
    ∀ a : Nat, ∀ s ∈ outs,
      statusPriority s ≤ outs.foldl (fun m o => Nat.max m (statusPriority o)) a := by
  induction outs with
  | nil => intro a s hs; cases hs
  | cons o rest ih =>
    intro a s hs
    rcases List.mem_cons.mp hs with h | h
    · subst h
      exact le_trans (Nat.le_max_right a _) (foldMax_start_le rest _)
    · exact ih _ s h

theorem foldMax_le_bound (outs : List KycVerificationStatus) :
    ∀ a n : Nat, a ≤ n → (∀ s ∈ outs, statusPriority s ≤ n) →
      outs.foldl (fun m o => Nat.max m (statusPriority o)) a ≤ n := by
  induction outs with
  | nil => intro a n ha _; simpa using ha
  | cons o rest ih =>
    intro a n ha hb
    exact ih _ n (Nat.max_le.mpr ⟨ha, hb o (List.mem_cons_self _ _)⟩)
      (fun s hs => hb s (List.mem_cons_of_mem _ hs))

theorem status_of_three_le (s : KycVerificationStatus) (h : 3 ≤ statusPriority s) :
    s = .Verified ∨ s = .Expired ∨ s = .Revoked := by
  cases s <;> simp_all [statusPriority]

theorem status_invalid_or_error (s : KycVerificationStatus) (hV : s ≠ .Verified)
    (hE : s ≠ .Expired) (hR : s ≠ .Revoked) (hN : s ≠ .NotVerified) :
    s = .Invalid ∨ s = .Error := by
  cases s <;> simp_all

theorem head_getD_all_eq {α : Type} (l : List α) (v d : α)
    (hall : ∀ x ∈ l, x = v) (hne : l ≠ []) : l.head?.getD d = v := by
  cases l with
  | nil => exact absurd rfl hne
  | cons x rest => simpa using hall x (List.mem_cons_self _ _)

theorem finalOf_priority_eq_max (outs : List KycVerificationStatus)
    (hnv : KycVerificationStatus.NotVerified ∉ outs) (hne : outs ≠ [])
    (hcond : (∃ o ∈ outs, 3 ≤ statusPriority o) ∨
      ¬(KycVerificationStatus.Invalid ∈ outs ∧ KycVerificationStatus.Error ∈ outs)) :
    statusPriority (finalOf outs) = maxPriority outs := by
  by_cases mV : KycVerificationStatus.Verified ∈ outs
  · rw [finalOf, if_pos mV]
    have h1 : statusPriority .Verified ≤ maxPriority outs := foldMax_mem_le outs 0 _ mV
    have h2 : maxPriority outs ≤ 5 := foldMax_le_bound outs 0 5 (by omega)
      (fun s _ => by cases s <;> simp [statusPriority])
    simp only [statusPriority] at h1 ⊢
    omega
  · by_cases mE : KycVerificationStatus.Expired ∈ outs
    · rw [finalOf, if_neg mV, if_pos mE]
      have h1 : statusPriority .Expired ≤ maxPriority outs := foldMax_mem_le outs 0 _ mE
      have h2 : maxPriority outs ≤ 4 := foldMax_le_bound outs 0 4 (by omega)
        (fun s hs => by cases s <;> simp_all [statusPriority])
      simp only [statusPriority] at h1 ⊢
      omega
    · by_cases mR : KycVerificationStatus.Revoked ∈ outs
      · rw [finalOf, if_neg mV, if_neg mE, if_pos mR]
        have h1 : statusPriority .Revoked ≤ maxPriority outs := foldMax_mem_le outs 0 _ mR
        have h2 : maxPriority outs ≤ 3 := foldMax_le_bound outs 0 3 (by omega)
          (fun s hs => by cases s <;> simp_all [statusPriority])
        simp only [statusPriority] at h1 ⊢
        omega
      · have hIE : ∀ s ∈ outs, s = .Invalid ∨ s = .Error := fun s hs =>
          status_invalid_or_error s (fun h => mV (h ▸ hs)) (fun h => mE (h ▸ hs))
            (fun h => mR (h ▸ hs)) (fun h => hnv (h ▸ hs))
        have hcond2 : ¬(KycVerificationStatus.Invalid ∈ outs ∧
            KycVerificationStatus.Error ∈ outs) := by
          rcases hcond with ⟨o, ho, h3⟩ | h
          · rcases status_of_three_le o h3 with h | h | h <;> subst h
            · exact absurd ho mV
            · exact absurd ho mE
            · exact absurd ho mR
          · exact h
        obtain ⟨o, rest, rfl⟩ : ∃ o rest, outs = o :: rest := by
          cases outs with
          | nil => exact absurd rfl hne
          | cons o rest => exact ⟨o, rest, rfl⟩
        have hov := hIE o (List.mem_cons_self _ _)
        have hall : ∀ s ∈ o :: rest, s = o := by
          intro s hs
          rcases hIE s hs with h | h <;> rcases hov with h2 | h2 <;> subst h <;> subst h2
          · rfl
          · exact absurd ⟨hs, List.mem_cons_self _ _⟩ hcond2
          · exact absurd ⟨List.mem_cons_self _ _, hs⟩ hcond2
          · rfl
        rw [finalOf, if_neg mV, if_neg mE, if_neg mR,
          head_getD_all_eq (o :: rest) o _ hall hne]
        have h1 : statusPriority o ≤ maxPriority (o :: rest) :=
          foldMax_mem_le _ 0 _ (List.mem_cons_self _ _)
        have h2 : maxPriority (o :: rest) ≤ statusPriority o :=
          foldMax_le_bound _ 0 _ (Nat.zero_le _)
            (fun s hs => by rw [hall s hs])
        omega

theorem finalOf_perm (outs outs2 : List KycVerificationStatus)
    (hperm : List.Perm outs outs2)
    (hnv : KycVerificationStatus.NotVerified ∉ outs)
    (hcond : (∃ o ∈ outs, 3 ≤ statusPriority o) ∨
      ¬(KycVerificationStatus.Invalid ∈ outs ∧ KycVerificationStatus.Error ∈ outs)) :
    finalOf outs = finalOf outs2 := by
  have hmem : ∀ s : KycVerificationStatus, s ∈ outs ↔ s ∈ outs2 := fun s => hperm.mem_iff
  by_cases mV : KycVerificationStatus.Verified ∈ outs
  · rw [finalOf, finalOf, if_pos mV, if_pos ((hmem _).mp mV)]
  · by_cases mE : KycVerificationStatus.Expired ∈ outs
    · rw [finalOf, finalOf, if_neg mV, if_neg (fun h => mV ((hmem _).mpr h)),
        if_pos mE, if_pos ((hmem _).mp mE)]
    · by_cases mR : KycVerificationStatus.Revoked ∈ outs
      · rw [finalOf, finalOf, if_neg mV, if_neg (fun h => mV ((hmem _).mpr h)),
          if_neg mE, if_neg (fun h => mE ((hmem _).mpr h)),
          if_pos mR, if_pos ((hmem _).mp mR)]
      · have hIE : ∀ s ∈ outs, s = .Invalid ∨ s = .Error := fun s hs =>
          status_invalid_or_error s (fun h => mV (h ▸ hs)) (fun h => mE (h ▸ hs))
            (fun h => mR (h ▸ hs)) (fun h => hnv (h ▸ hs))
        have hcond2 : ¬(KycVerificationStatus.Invalid ∈ outs ∧
            KycVerificationStatus.Error ∈ outs) := by
          rcases hcond with ⟨o, ho, h3⟩ | h
          · rcases status_of_three_le o h3 with h | h | h <;> subst h
            · exact absurd ho mV
            · exact absurd ho mE
            · exact absurd ho mR
          · exact h
        rw [finalOf, finalOf, if_neg mV, if_neg (fun h => mV ((hmem _).mpr h)),
          if_neg mE, if_neg (fun h => mE ((hmem _).mpr h)),
          if_neg mR, if_neg (fun h => mR ((hmem _).mpr h))]
        cases houts : outs with
        | nil =>
          have : outs2 = [] := by
            have := hperm.length_eq
            rw [houts] at this
            exact List.length_eq_zero.mp this.symm
          rw [this]
        | cons o rest =>
          subst houts
          have hov := hIE o (List.mem_cons_self _ _)
          have hall : ∀ s ∈ o :: rest, s = o := by
            intro s hs
            rcases hIE s hs with h | h <;> rcases hov with h2 | h2 <;> subst h <;> subst h2
            · rfl
            · exact absurd ⟨hs, List.mem_cons_self _ _⟩ hcond2
            · exact absurd ⟨List.mem_cons_self _ _, hs⟩ hcond2
            · rfl
          have hall2 : ∀ s ∈ outs2, s = o := fun s hs => hall s ((hmem _).mpr hs)
          have hne2 : outs2 ≠ [] := by
            intro h
            have := hperm.length_eq
            rw [h] at this
            simp at this
          rw [head_getD_all_eq (o :: rest) o _ hall (by simp),
            head_getD_all_eq outs2 o _ hall2 hne2]

theorem verifyLoop_cons_mismatch (q : String → InspectResult) (T R oid own : String)
    (cf : AttFields) (rest : List RawOwnedObject) (acc : KycVerificationResult)
    (hmo : own ≠ cf.recipient) :
    verifyLoop q T R
      ({ data := some
          { objectId := oid
            content := some { dataType := ("moveObject"), type := T, fields := cf }
            owner := some (.addressOwner own) } } :: rest) acc =
    verifyLoop q T R rest
      (if acc.status = .NotVerified then
        { status := .Invalid
          details := ("Attestation object " ++ oid ++ " owner does not match intended recipient.")
          attestation := some (attestationDetailsOf oid cf own) }
       else acc) := by
  simp [verifyLoop, hmo]

theorem verifyLoop_cons_queryfail (q : String → InspectResult) (T R oid own : String)
    (cf : AttFields) (rest : List RawOwnedObject) (acc : KycVerificationResult) (m : String)
    (hro : own = cf.recipient) (hq : checkStatus R (q oid) = .error m) :
    verifyLoop q T R
      ({ data := some
          { objectId := oid
            content := some { dataType := ("moveObject"), type := T, fields := cf }
            owner := some (.addressOwner own) } } :: rest) acc =
    ((verifyLoop q T R rest
        (if acc.status = .NotVerified then
          { status := .Error
            details := ("Failed to query on-chain status for attestation " ++ oid ++ ".")
            attestation := none }
         else acc)).1,
     oid :: (verifyLoop q T R rest
        (if acc.status = .NotVerified then
          { status := .Error
            details := ("Failed to query on-chain status for attestation " ++ oid ++ ".")
            attestation := none }
         else acc)).2) := by
  subst hro
  simp [verifyLoop, hq]

theorem verifyLoop_cons_active (q : String → InspectResult) (T R oid own : String)
    (cf : AttFields) (rest : List RawOwnedObject) (acc : KycVerificationResult)
    (hro : own = cf.recipient) (hq : checkStatus R (q oid) = .ok ("Active")) :
    verifyLoop q T R
      ({ data := some
          { objectId := oid
            content := some { dataType := ("moveObject"), type := T, fields := cf }
            owner := some (.addressOwner own) } } :: rest) acc =
    ({ status := .Verified
       details := ("Attestation " ++ oid ++ ": Status is " ++ statusString .Verified)
       attestation := some (attestationDetailsOf oid cf own) }, [oid]) := by
  subst hro
  simp [verifyLoop, hq, statusString]

theorem outcomes_cons_subset (q : String → InspectResult) (T R : String)
    (obj : RawOwnedObject) (pre : List RawOwnedObject) :
    ∀ s, s ∈ outcomes q T R pre → s ∈ outcomes q T R (obj :: pre) := by
  intro s h
  rw [outcomes, List.filterMap_cons]
  cases candidateOutcome q T R obj with
  | none => exact h
  | some o => exact List.mem_cons_of_mem _ h

theorem verifyLoop_append (q : String → InspectResult) (T R : String)
    (pre : List RawOwnedObject) :
    ∀ (acc : KycVerificationResult) (tl : List RawOwnedObject),
      KycVerificationStatus.Verified ∉ outcomes q T R pre →
      verifyLoop q T R (pre ++ tl) acc =
        ((verifyLoop q T R tl ((verifyLoop q T R pre acc).1)).1,
         (verifyLoop q T R pre acc).2 ++
           (verifyLoop q T R tl ((verifyLoop q T R pre acc).1)).2) := by
  induction pre with
  | nil => intro acc tl _; simp [verifyLoop]
  | cons obj pre ih =>
    intro acc tl hv
    have hv2 : KycVerificationStatus.Verified ∉ outcomes q T R pre :=
      fun h => hv (outcomes_cons_subset q T R obj pre _ h)
    obtain ⟨od⟩ := obj
    rcases od with _ | ⟨oid, oc, oo⟩
    · simpa [verifyLoop] using ih acc tl hv2
    rcases oc with _ | ⟨cdt, ct, cf⟩
    · simpa [verifyLoop] using ih acc tl hv2
    by_cases hskip : cdt ≠ ("moveObject") ∨ ct ≠ T
    · simpa [verifyLoop, hskip] using ih acc tl hv2
    rcases oo with _ | (addr | _)
    · simpa [verifyLoop, hskip] using ih acc tl hv2
    · by_cases hmo : addr ≠ cf.recipient
      · simp [verifyLoop, hskip, hmo]
        rw [ih _ tl hv2]
      · rcases hcs : checkStatus R (q oid) with m | s
        · simp [verifyLoop, hskip, hmo, hcs]
          rw [ih _ tl hv2]
          simp [List.cons_append]
        · by_cases hA : s = ("Active")
          · exact absurd (by
              simp [outcomes, List.filterMap_cons, candidateOutcome, hskip, hmo, hcs, hA]) hv
          · by_cases hE : s = ("Expired")
            · simp [verifyLoop, hskip, hmo, hcs, hA, hE]
              rw [ih _ tl hv2]
              simp [List.cons_append]
            · by_cases hR : s = ("Revoked")
              · simp [verifyLoop, hskip, hmo, hcs, hA, hE, hR]
                rw [ih _ tl hv2]
                simp [List.cons_append]
              · simp [verifyLoop, hskip, hmo, hcs, hA, hE, hR]
                rw [ih _ tl hv2]
                simp [List.cons_append]
    · simpa [verifyLoop, hskip] using ih acc tl hv2

/-- C9: in `get_effective_status`, revocation takes precedence over expiry:
an attestation whose id is present in the RevocationRegistry is Revoked even
if its expiry time has passed; otherwise the result is Expired iff
`expiry_timestamp_ms` is nonzero and the clock has reached it, and Active in
all remaining cases. -/
theorem C9_effective_status (attestation : KycAttestationOnChain)
    (registry : RevocationRegistry) (clock_ms : Nat) :
    (is_revoked registry attestation.id = true →
      get_effective_status attestation registry clock_ms = .Revoked) ∧
    (is_revoked registry attestation.id = false →
      ((get_effective_status attestation registry clock_ms = .Expired ↔
          (attestation.expiry_timestamp_ms ≠ 0 ∧
            clock_ms ≥ attestation.expiry_timestamp_ms)) ∧
        (¬(attestation.expiry_timestamp_ms ≠ 0 ∧
            clock_ms ≥ attestation.expiry_timestamp_ms) →
          get_effective_status attestation registry clock_ms = .Active))) := by
  refine ⟨fun h => by simp [get_effective_status, h], fun h => ⟨⟨fun he => ?_, fun hc => by
    simp [get_effective_status, h, hc]⟩, fun hc => by simp [get_effective_status, h, hc]⟩⟩
  by_contra hc
  simp [get_effective_status, h, hc] at he

/-- C9 witness: a concrete attestation that is both revoked and past expiry
evaluates to Revoked. -/
theorem C9_effective_status_witness :
    is_revoked { revoked_attestations := [(1, 50)] }
      (({ id := 1, recipient := 2, issuer := 3, issuance_timestamp_ms := 0,
          expiry_timestamp_ms := 100 } : KycAttestationOnChain)).id = true ∧
    get_effective_status
      { id := 1, recipient := 2, issuer := 3, issuance_timestamp_ms := 0,
        expiry_timestamp_ms := 100 }
      { revoked_attestations := [(1, 50)] } 200 = .Revoked :=
  ⟨by decide,
    (C9_effective_status
      { id := 1, recipient := 2, issuer := 3, issuance_timestamp_ms := 0,
        expiry_timestamp_ms := 100 }
      { revoked_attestations := [(1, 50)] } 200).1 (by decide)⟩

/-- C10: the derived `statusRaw` is Active exactly when the record's internal
status variant is exactly Active, and is silently Revoked for every other
value, including a missing variant, which is coerced rather than rejected
(verifier.ts 167-181 and web/pages/api/kyc/verify.ts 84-100). -/
theorem C10_statusRaw (objectId : String) (f : AttFields) (currentOwner : String) :
    ((attestationDetailsOf objectId f currentOwner).statusRaw = ("Active") ↔
      f.status_variant = some ("Active")) ∧
    (f.status_variant ≠ some ("Active") →
      (attestationDetailsOf objectId f currentOwner).statusRaw = ("Revoked")) := by
  refine ⟨⟨fun h => ?_, fun h => by simp [attestationDetailsOf, h]⟩,
    fun h => by simp [attestationDetailsOf, h]⟩
  by_contra hc
  simp [attestationDetailsOf, hc] at h

/-- C10 witness: a record with a missing status variant is coerced to
Revoked. -/
theorem C10_statusRaw_witness :
    ({ recipient := ("r"), issuer := ("i"), issuance_timestamp_ms := 1,
       expiry_timestamp_ms := 0, status_variant := none } : AttFields).status_variant ≠
      some ("Active") ∧
    (attestationDetailsOf ("o")
      { recipient := ("r"), issuer := ("i"), issuance_timestamp_ms := 1,
        expiry_timestamp_ms := 0, status_variant := none } ("r")).statusRaw = ("Revoked") :=
  ⟨by decide,
    (C10_statusRaw ("o")
      { recipient := ("r"), issuer := ("i"), issuance_timestamp_ms := 1,
        expiry_timestamp_ms := 0, status_variant := none } ("r")).2 (by decide)⟩

/-- C7: both decoders map tag 0 to Active, 1 to Expired, 2 to Revoked, and
fail with an error (never silently defaulting) when the declared return type
differs from the expected enumerator type, when the payload is empty, or when
the tag index is outside 0, 1, 2. -/
theorem C7_decoder_totality (R t : String) (bs : List Nat) (n : Nat) :
    (∀ rest : List Nat,
      checkStatus R (.success (some (0 :: rest, R))) = .ok ("Active") ∧
      checkStatus R (.success (some (1 :: rest, R))) = .ok ("Expired") ∧
      checkStatus R (.success (some (2 :: rest, R))) = .ok ("Revoked") ∧
      checkOnChainStatus R (.success (some (0 :: rest, R))) = .ok ("Active") ∧
      checkOnChainStatus R (.success (some (1 :: rest, R))) = .ok ("Expired") ∧
      checkOnChainStatus R (.success (some (2 :: rest, R))) = .ok ("Revoked")) ∧
    (t ≠ R →
      failed (checkStatus R (.success (some (bs, t)))) = true ∧
      failed (checkOnChainStatus R (.success (some (bs, t)))) = true) ∧
    (failed (checkStatus R (.success (some ([], R)))) = true ∧
      failed (checkOnChainStatus R (.success (some ([], R)))) = true) ∧
    (n ≠ 0 → n ≠ 1 → n ≠ 2 → ∀ rest : List Nat,
      failed (checkStatus R (.success (some (n :: rest, R)))) = true ∧
      failed (checkOnChainStatus R (.success (some (n :: rest, R)))) = true) := by
  refine ⟨fun rest => ?_, fun ht => ?_, ?_, fun h0 h1 h2 rest => ?_⟩
  · simp [checkStatus, checkOnChainStatus]
  · simp [checkStatus, checkOnChainStatus, failed, ht]
  · simp [checkStatus, checkOnChainStatus, failed]
  · rcases n with _ | _ | _ | k
    · exact absurd rfl h0
    · exact absurd rfl h1
    · exact absurd rfl h2
    · simp [checkStatus, checkOnChainStatus, failed]

/-- C7 witness: concrete decodes covering the tag mapping, a type mismatch,
and an out-of-range tag. -/
theorem C7_decoder_totality_witness :
    ("T") ≠ ("R") ∧ (3 : Nat) ≠ 0 ∧
    checkStatus ("R") (.success (some ([0], ("R")))) = .ok ("Active") ∧
    failed (checkStatus ("R") (.success (some ([], ("R"))))) = true ∧
    failed (checkStatus ("R") (.success (some ([3], ("T"))))) = true ∧
    failed (checkOnChainStatus ("R") (.success (some ([3], ("R"))))) = true :=
  ⟨by decide, by decide,
    ((C7_decoder_totality ("R") ("T") [3] 3).1 []).1,
    ((C7_decoder_totality ("R") ("T") [3] 3).2.2.1).1,
    ((C7_decoder_totality ("R") ("T") [3] 3).2.1 (by decide)).1,
    ((C7_decoder_totality ("R") ("T") [3] 3).2.2.2 (by decide) (by decide) (by decide) []).2⟩

/-- C8 counterexample: with a cold cache (no cached issuer set) and a failing
refresh, `fetchAuthorizedIssuers` returns normally with no issuer set - the
failure is caught and logged instead of propagating as any error to the
caller, contradicting the claim. -/
theorem C8_counterexample :
    fetchAuthorizedIssuers
      { cacheDurationMs := 300000, authorizedIssuers := none, lastIssuerFetchTime := 0 }
      1000 false (.error ("network down")) = .ok none := by
  rfl

/-- C8 amended: when the cache holds no set yet and the refresh call fails,
the failure is caught inside `fetchAuthorizedIssuers` (the source only logs
it); the caller receives a normal return carrying no issuer set, and no
AuthorizationCacheError (or any error) propagates. -/
theorem C8_amended_refresh_failure (st : SynthVerifierCache) (now : Int)
    (forceRefresh : Bool) (e : String) (hcold : st.authorizedIssuers = none) :
    fetchAuthorizedIssuers st now forceRefresh (.error e) = .ok none := by
  simp [fetchAuthorizedIssuers, hcold]

/-- C8 witness: the amended behaviour at a concrete cold cache. -/
theorem C8_amended_refresh_failure_witness :
    ({ cacheDurationMs := 300000, authorizedIssuers := none,
       lastIssuerFetchTime := 0 } : SynthVerifierCache).authorizedIssuers = none ∧
    fetchAuthorizedIssuers
      { cacheDurationMs := 300000, authorizedIssuers := none, lastIssuerFetchTime := 0 }
      5 true (.error ("boom")) = .ok none :=
  ⟨rfl, C8_amended_refresh_failure
    { cacheDurationMs := 300000, authorizedIssuers := none, lastIssuerFetchTime := 0 }
    5 true ("boom") rfl⟩

/-- C4: if a candidate record owned by its recipient resolves to effective
status Active (the first such candidate, nothing Verified having been produced
among the earlier records), the call returns immediately with status Verified
and that candidate's attestation (whose objectId is the candidate's id), the
result being independent of every other candidate's outcome; the queried ids
are exactly those of the preceding records followed by this candidate, so no
further status query is issued after it. -/
theorem C4_verified_short_circuit (q : String → InspectResult) (T R oid own : String)
    (cf : AttFields) (pre post : List RawOwnedObject)
    (hro : own = cf.recipient) (hq : checkStatus R (q oid) = .ok ("Active"))
    (hpre : KycVerificationStatus.Verified ∉ outcomes q T R pre) :
    verifyKycRun q T R (.ok (pre ++
      { data := some
          { objectId := oid
            content := some { dataType := ("moveObject"), type := T, fields := cf }
            owner := some (.addressOwner own) } } :: post)) =
      ({ status := .Verified
         details := ("Attestation " ++ oid ++ ": Status is " ++ statusString .Verified)
         attestation := some (attestationDetailsOf oid cf own) },
       (verifyLoop q T R pre initialResult).2 ++ [oid]) := by
  simp only [verifyKycRun]
  rw [if_neg (by simp)]
  rw [verifyLoop_append q T R pre initialResult _ hpre]
  rw [verifyLoop_cons_active q T R oid own cf post _ hro hq]

/-- C4 witness: with no preceding records and one trailing mismatched record,
a recipient-owned candidate resolving Active returns the Verified result at
that candidate and queries only it. -/
theorem C4_verified_short_circuit_witness :
    ("0xr") = sampleFields.recipient ∧
    checkStatus ("R") (okOracle ("0xb")) = .ok ("Active") ∧
    KycVerificationStatus.Verified ∉ outcomes okOracle ("T") ("R") [] ∧
    verifyKycRun okOracle ("T") ("R") (.ok ([] ++ failObj :: [mismatchObj])) =
      ({ status := .Verified
         details := ("Attestation " ++ ("0xb") ++ ": Status is " ++ statusString .Verified)
         attestation := some (attestationDetailsOf ("0xb") sampleFields ("0xr")) },
       (verifyLoop okOracle ("T") ("R") [] initialResult).2 ++ [("0xb")]) :=
  ⟨rfl, rfl, by simp [outcomes],
    C4_verified_short_circuit okOracle ("T") ("R") ("0xb") ("0xr") sampleFields
      [] [mismatchObj] rfl rfl (by simp [outcomes])⟩

/-- C5: a candidate whose current owner differs from its recipient produces
the per-candidate outcome Invalid - never Verified, Expired, or Revoked - and
is processed without issuing a status query: the loop continues with the
merged accumulator and the queried-id list gains no entry for it. -/
theorem C5_ownership_mismatch (q : String → InspectResult) (T R oid own : String)
    (cf : AttFields) (rest : List RawOwnedObject) (acc : KycVerificationResult)
    (hmo : own ≠ cf.recipient) :
    candidateOutcome q T R
      { data := some
          { objectId := oid
            content := some { dataType := ("moveObject"), type := T, fields := cf }
            owner := some (.addressOwner own) } } = some .Invalid ∧
    verifyLoop q T R
      ({ data := some
          { objectId := oid
            content := some { dataType := ("moveObject"), type := T, fields := cf }
            owner := some (.addressOwner own) } } :: rest) acc =
      verifyLoop q T R rest
        (if acc.status = .NotVerified then
          { status := .Invalid
            details := ("Attestation object " ++ oid ++ " owner does not match intended recipient.")
            attestation := some (attestationDetailsOf oid cf own) }
         else acc) :=
  ⟨by simp [candidateOutcome, hmo],
    verifyLoop_cons_mismatch q T R oid own cf rest acc hmo⟩

/-- C5 witness: the mismatch fixture held by 0xz instead of its recipient
0xr. -/
theorem C5_ownership_mismatch_witness :
    ("0xz") ≠ sampleFields.recipient ∧
    candidateOutcome failOracle ("T") ("R") mismatchObj = some .Invalid :=
  ⟨by decide,
    (C5_ownership_mismatch failOracle ("T") ("R") ("0xa") ("0xz") sampleFields
      [] initialResult (by decide)).1⟩

/-- C6: with enumeration succeeding with exactly one candidate owned by its
recipient whose status query raises a transport failure, the call returns a
structured result with status Error; the embedded verifier is a total
function absorbing the failure via `checkStatus`, so no exception escapes and
the call is not aborted. -/
theorem C6_single_transport_failure (q : String → InspectResult) (T R oid own : String)
    (cf : AttFields) (m : String) (hro : own = cf.recipient)
    (hq : q oid = .failure m) :
    (verifyKycStatus q T R (.ok
      [{ data := some
          { objectId := oid
            content := some { dataType := ("moveObject"), type := T, fields := cf }
            owner := some (.addressOwner own) } }])).status = .Error := by
  subst hro
  have hcs : checkStatus R (q oid) =
      .error ("Error checking attestation status: devInspect failed: " ++ m) := by
    rw [hq]
    rfl
  rw [verifyKycStatus_finalOf q T R _ (by simp)]
  have hout : outcomes q T R
      [{ data := some
          { objectId := oid
            content := some { dataType := ("moveObject"), type := T, fields := cf }
            owner := some (.addressOwner cf.recipient) } }] = [.Error] := by
    simp [outcomes, candidateOutcome, hcs]
  rw [hout]
  rfl

/-- C6 witness: the single-candidate transport-failure scenario on the
fixtures. -/
theorem C6_single_transport_failure_witness :
    ("0xr") = sampleFields.recipient ∧
    failOracle ("0xb") = .failure ("down") ∧
    (verifyKycStatus failOracle ("T") ("R") (.ok [failObj])).status = .Error :=
  ⟨rfl, rfl,
    C6_single_transport_failure failOracle ("T") ("R") ("0xb") ("0xr") sampleFields
      ("down") rfl rfl⟩

/-- C1 counterexample: two candidates, one ownership-mismatched (outcome
Invalid) and one recipient-owned with a failing status query (outcome Error);
swapping the enumeration order changes the final status from Error to
Invalid, because the Invalid and Error branches replace the running best only
when it is still NotVerified. -/
theorem C1_counterexample :
    List.Perm [failObj, mismatchObj] [mismatchObj, failObj] ∧
    (verifyKycStatus failOracle ("T") ("R") (.ok [failObj, mismatchObj])).status = .Error ∧
    (verifyKycStatus failOracle ("T") ("R") (.ok [mismatchObj, failObj])).status = .Invalid := by
  refine ⟨List.Perm.swap mismatchObj failObj [], ?_, ?_⟩ <;> decide

/-- C1 amended: permuting the enumeration order never changes the final
status provided some per-candidate outcome has priority at least 3 (Verified,
Expired, or Revoked), or the outcomes do not contain both Invalid and Error;
in the remaining case (both Invalid and Error present with nothing above
them) the final status is that of the earliest such candidate and may change
under permutation, though only between Invalid and Error. -/
theorem C1_amended_order_independence (q : String → InspectResult) (T R : String)
    (objs objs2 : List RawOwnedObject)
    (hperm : List.Perm objs objs2)
    (hcond : (∃ o ∈ outcomes q T R objs, 3 ≤ statusPriority o) ∨
      ¬(KycVerificationStatus.Invalid ∈ outcomes q T R objs ∧
        KycVerificationStatus.Error ∈ outcomes q T R objs)) :
    (verifyKycStatus q T R (.ok objs)).status =
      (verifyKycStatus q T R (.ok objs2)).status := by
  by_cases hnil : objs = []
  · have hnil2 : objs2 = [] := by
      have hl := hperm.length_eq
      rw [hnil] at hl
      exact List.length_eq_zero.mp hl.symm
    rw [hnil, hnil2]
  · have hnil2 : objs2 ≠ [] := by
      intro h
      have hl := hperm.length_eq
      rw [h] at hl
      exact hnil (List.length_eq_zero.mp hl)
    rw [verifyKycStatus_finalOf q T R objs hnil,
      verifyKycStatus_finalOf q T R objs2 hnil2]
    exact finalOf_perm _ _ (hperm.filterMap _)
      (notVerified_not_mem_outcomes q T R objs) hcond

/-- C1 witness: a singleton batch (outcome Error only) is order-independent
under the trivial permutation. -/
theorem C1_amended_order_independence_witness :
    List.Perm [failObj] [failObj] ∧
    ((∃ o ∈ outcomes failOracle ("T") ("R") [failObj], 3 ≤ statusPriority o) ∨
      ¬(KycVerificationStatus.Invalid ∈ outcomes failOracle ("T") ("R") [failObj] ∧
        KycVerificationStatus.Error ∈ outcomes failOracle ("T") ("R") [failObj])) ∧
    (verifyKycStatus failOracle ("T") ("R") (.ok [failObj])).status =
      (verifyKycStatus failOracle ("T") ("R") (.ok [failObj])).status :=
  ⟨List.Perm.refl _, Or.inr (by decide),
    C1_amended_order_independence failOracle ("T") ("R") [failObj] [failObj]
      (List.Perm.refl _) (Or.inr (by decide))⟩

/-- C2 counterexample: for the batch producing outcomes Error then Invalid,
the returned status is Error with priority 0, but the maximum outcome
priority is 2 (Invalid). -/
theorem C2_counterexample :
    outcomes failOracle ("T") ("R") [failObj, mismatchObj] = [.Error, .Invalid] ∧
    statusPriority (verifyKycStatus failOracle ("T") ("R")
        (.ok [failObj, mismatchObj])).status ≠
      maxPriority (outcomes failOracle ("T") ("R") [failObj, mismatchObj]) := by
  constructor <;> decide

/-- C2 amended: when at least one per-candidate outcome is produced, the
returned status's priority equals the maximum outcome priority provided some
outcome has priority at least 3 (Verified, Expired, or Revoked) or the
outcomes do not contain both Invalid and Error; with both Invalid and Error
present and nothing above them, the returned status is the earliest of those
outcomes and its priority can be below the maximum. -/
theorem C2_amended_max_priority (q : String → InspectResult) (T R : String)
    (objs : List RawOwnedObject)
    (hne : outcomes q T R objs ≠ [])
    (hcond : (∃ o ∈ outcomes q T R objs, 3 ≤ statusPriority o) ∨
      ¬(KycVerificationStatus.Invalid ∈ outcomes q T R objs ∧
        KycVerificationStatus.Error ∈ outcomes q T R objs)) :
    statusPriority (verifyKycStatus q T R (.ok objs)).status =
      maxPriority (outcomes q T R objs) := by
  have hobjs : objs ≠ [] := by
    intro h
    subst h
    exact hne rfl
  rw [verifyKycStatus_finalOf q T R objs hobjs]
  exact finalOf_priority_eq_max _ (notVerified_not_mem_outcomes q T R objs) hne hcond

/-- C2 witness: a singleton batch whose only outcome is Error attains the
maximum (priority 0). -/
theorem C2_amended_max_priority_witness :
    outcomes failOracle ("T") ("R") [failObj] ≠ [] ∧
    ((∃ o ∈ outcomes failOracle ("T") ("R") [failObj], 3 ≤ statusPriority o) ∨
      ¬(KycVerificationStatus.Invalid ∈ outcomes failOracle ("T") ("R") [failObj] ∧
        KycVerificationStatus.Error ∈ outcomes failOracle ("T") ("R") [failObj])) ∧
    statusPriority (verifyKycStatus failOracle ("T") ("R") (.ok [failObj])).status =
      maxPriority (outcomes failOracle ("T") ("R") [failObj]) :=
  ⟨by decide, Or.inr (by decide),
    C2_amended_max_priority failOracle ("T") ("R") [failObj] (by decide)
      (Or.inr (by decide))⟩

/-- C3 counterexample: with the running best at Error (priority 0), an
ownership-mismatch candidate with outcome Invalid (priority 2) has strictly
greater priority, yet the code keeps the Error best because the Invalid
branch replaces only a NotVerified best. -/
theorem C3_counterexample :
    statusPriority .Invalid > statusPriority .Error ∧
    (verifyLoop failOracle ("T") ("R") [mismatchObj]
      { status := .Error, details := ("previous candidate failed"), attestation := none }).1 =
      { status := .Error, details := ("previous candidate failed"), attestation := none } := by
  constructor <;> decide

/-- C3 amended: when a candidate produces a non-Verified outcome (Invalid
from an ownership mismatch, or Error from a status-query failure), the
running best is replaced by that candidate's result if and only if the
current best's status is still NotVerified - not whenever the candidate's
priority is strictly greater. -/
theorem C3_amended_merge_rule (q : String → InspectResult) (T R oid own : String)
    (cf : AttFields) (rest : List RawOwnedObject) (acc : KycVerificationResult)
    (m : String) :
    (own ≠ cf.recipient →
      verifyLoop q T R
        ({ data := some
            { objectId := oid
              content := some { dataType := ("moveObject"), type := T, fields := cf }
              owner := some (.addressOwner own) } } :: rest) acc =
        verifyLoop q T R rest
          (if acc.status = .NotVerified then
            { status := .Invalid
              details := ("Attestation object " ++ oid ++ " owner does not match intended recipient.")
              attestation := some (attestationDetailsOf oid cf own) }
           else acc)) ∧
    (own = cf.recipient → checkStatus R (q oid) = .error m →
      verifyLoop q T R
        ({ data := some
            { objectId := oid
              content := some { dataType := ("moveObject"), type := T, fields := cf }
              owner := some (.addressOwner own) } } :: rest) acc =
        ((verifyLoop q T R rest
            (if acc.status = .NotVerified then
              { status := .Error
                details := ("Failed to query on-chain status for attestation " ++ oid ++ ".")
                attestation := none }
             else acc)).1,
         oid :: (verifyLoop q T R rest
            (if acc.status = .NotVerified then
              { status := .Error
                details := ("Failed to query on-chain status for attestation " ++ oid ++ ".")
                attestation := none }
             else acc)).2)) :=
  ⟨fun hmo => verifyLoop_cons_mismatch q T R oid own cf rest acc hmo,
    fun hro hq => verifyLoop_cons_queryfail q T R oid own cf rest acc m hro hq⟩

/-- C3 witness: the mismatch branch of the amended merge rule on the
fixtures, starting from the initial NotVerified best. -/
theorem C3_amended_merge_rule_witness :
    ("0xz") ≠ sampleFields.recipient ∧
    verifyLoop failOracle ("T") ("R") [mismatchObj] initialResult =
      verifyLoop failOracle ("T") ("R") []
        (if initialResult.status = .NotVerified then
          { status := .Invalid
            details := ("Attestation object " ++ ("0xa") ++ " owner does not match intended recipient.")
            attestation := some (attestationDetailsOf ("0xa") sampleFields ("0xz")) }
         else initialResult) :=
  ⟨by decide,
    (C3_amended_merge_rule failOracle ("T") ("R") ("0xa") ("0xz") sampleFields
      [] initialResult ("m")).1 (by decide)⟩
